import Mathlib

/-!
Verification development for `scripts/manage_model_apis.py`, a CLI utility
that lists, stops and restarts model deployments through a remote REST API.

The Python program is embedded shallowly as pure state-passing functions:

* `World` holds the observable state a run manipulates: the ordered log of
  HTTP requests issued, the lines printed to standard output, and the
  contents of the persistence file `stopped_models.txt` (`none` when the
  file does not exist).
* `Api` is the network oracle: it decides, for each request the program can
  issue, the HTTP status code and decoded JSON body of the response.  The
  `getModels` response may depend on how many `getModels` requests for the
  same project were issued earlier in the run, so that repeated fetches of
  the same project are observationally distinct.
* Each Python function becomes a Lean function of the same name threading a
  `World`.  An uncaught Python exception is modelled by an `Option String`
  component carrying the fault (`none` means normal return).
* Python `line.strip().split(',')` is re-implemented structurally on
  `List Char` (`stripChars`, `splitComma`) so that everything evaluates
  inside the kernel; the semantics is that of CPython for these two calls.
* `format_timestamp` renders `lastModified / 1000` seconds in the host's
  local timezone via `strftime`; the timezone-dependent rendering is
  abstracted as a parameter `render` passed through the display functions.
* Logging (`logging.debug` / `logging.error` and the log file deleted and
  recreated by `main`) is not part of the observable state modelled here;
  no claim under verification mentions the log file.
-/

namespace Domino

/-- HTTP requests the program can issue, in the order of `manage_model_apis.py`:
`GET /v4/projects`, `GET /v4/modelManager/getModels?projectId=`,
`POST .../stopModelDeployment`, `POST .../startModelDeployment`. -/
inductive Request where
  | getProjects : Request
  | getModels : String → Request
  | stopModel : String → String → Request
  | startModel : String → String → Request
deriving Repr, DecidableEq

/-- Subset of a project record consumed by the script (`project['id']`,
`project['name']`). -/
structure Project where
  id : String
  name : String
deriving Repr, DecidableEq

/-- Owner record: only `fullName` is consumed (in `show_models`). -/
structure Owner where
  fullName : String
deriving Repr, DecidableEq

/-- Model record with exactly the fields `manage_model_apis.py` reads. -/
structure Model where
  id : String
  name : String
  description : String
  activeVersionNumber : Nat
  activeModelVersionId : String
  activeVersionDataPlaneId : String
  activeVersionStatus : String
  lastModified : Int
  projectId : String
  projectName : String
  projectOwnerUsername : String
  owners : List Owner
  isAsync : Bool
deriving Repr, DecidableEq

/-- Observable state of one run: the ordered HTTP request log, the lines
printed to standard output (one entry per Python `print` call), and the
contents of `stopped_models.txt` as a list of lines without their trailing
newline (`none` when the file does not exist). -/
structure World where
  requests : List Request
  output : List String
  file : Option (List String)
deriving Repr, DecidableEq

/-- Network oracle.  `projects` answers `GET /v4/projects`; `models pid n`
answers the `(n+1)`-th `getModels` request for project `pid` of the run;
`stop` and `start` answer the deployment POSTs.  Each answer is a status
code, paired with the decoded JSON body where the program reads one. -/
structure Api where
  projects : Nat × List Project
  models : String → Nat → Nat × List Model
  stop : String → String → Nat
  start : String → String → Nat

/-- Whether a request is a `getModels` request for the given project. -/
def isGetModels (project_id : String) (r : Request) : Bool :=
  match r with
  | Request.getModels q => q = project_id
  | _ => false

/-- Number of `getModels` requests for `project_id` in a request log. -/
def countGetModels (project_id : String) (rs : List Request) : Nat :=
  (rs.filter (isGetModels project_id)).length

/-- Embedding of `fetch_projects`: issues `GET /v4/projects`; on HTTP 200
returns the decoded body, otherwise logs the failure and returns `[]`. -/
def fetch_projects (api : Api) (w : World) : List Project × World :=
  let r := api.projects
  let w := { w with requests := w.requests ++ [Request.getProjects] }
  if r.1 = 200 then (r.2, w) else ([], w)

/-- Embedding of `fetch_models`: issues the `getModels` request for the
project (the oracle sees how many such requests were issued before); on
HTTP 200 returns the decoded body, otherwise logs and returns `[]`. -/
def fetch_models (api : Api) (project_id : String) (w : World) :
    List Model × World :=
  let r := api.models project_id (countGetModels project_id w.requests)
  let w := { w with requests := w.requests ++ [Request.getModels project_id] }
  if r.1 = 200 then (r.2, w) else ([], w)

/-- Embedding of `stop_model_deployment`: issues the stop POST and returns
`true` exactly on HTTP 200, `false` otherwise. -/
def stop_model_deployment (api : Api) (model_id active_model_version_id : String)
    (w : World) : Bool × World :=
  let st := api.stop model_id active_model_version_id
  let w := { w with
    requests := w.requests ++ [Request.stopModel model_id active_model_version_id] }
  if st = 200 then (true, w) else (false, w)

/-- Embedding of `start_model_deployment`: issues the start POST and returns
`true` exactly on HTTP 200, `false` otherwise. -/
def start_model_deployment (api : Api) (model_id active_model_version_id : String)
    (w : World) : Bool × World :=
  let st := api.start model_id active_model_version_id
  let w := { w with
    requests := w.requests ++ [Request.startModel model_id active_model_version_id] }
  if st = 200 then (true, w) else (false, w)

/-- Embedding of `format_timestamp`: CPython computes
`datetime.fromtimestamp(timestamp / 1000).strftime(...)`; the whole-second
part drives the rendered string and the rendering depends on the host local
timezone, abstracted as `render`. -/
def format_timestamp (render : Int → String) (timestamp : Int) : String :=
  render (timestamp / 1000)

/-- The model filter used throughout: `model['activeVersionStatus'] == "Running"`. -/
def running (m : Model) : Bool :=
  m.activeVersionStatus = "Running"

/-- The block of lines `show_models` prints for one model (each list entry is
one `print` call; the final one carries the extra `\n` of the source). -/
def modelLines (render : Int → String) (m : Model) : List String :=
  let i := m.id
  let n := m.name
  let d := m.description
  let avn := m.activeVersionNumber
  let avi := m.activeModelVersionId
  let adp := m.activeVersionDataPlaneId
  let avs := m.activeVersionStatus
  let lm := format_timestamp render m.lastModified
  let pid := m.projectId
  let pn := m.projectName
  let pou := m.projectOwnerUsername
  let ow := String.intercalate ", " (m.owners.map Owner.fullName)
  let ia := toString m.isAsync
  [s!"Model ID: {i}",
   s!"Name: {n}",
   s!"Description: {d}",
   s!"Active Version Number: {avn}",
   s!"Active Model Version ID: {avi}",
   s!"Active Version Data Plane ID: {adp}",
   s!"Active Version Status: {avs}",
   s!"Last Modified: {lm}",
   s!"Project ID: {pid}",
   s!"Project Name: {pn}",
   s!"Project Owner Username: {pou}",
   s!"Owners: {ow}",
   s!"Is Async: {ia}\n"]

/-- Embedding of `show_models`: fetches the models itself; with the
running-only filter set it restricts to `activeVersionStatus == "Running"`
and returns before printing anything when the filtered list is empty;
otherwise prints the project header and one block per model. -/
def show_models (api : Api) (render : Int → String)
    (project_id project_name : String) (show_running_only : Bool)
    (w : World) : World :=
  let p := fetch_models api project_id w
  let models := p.1
  let w := p.2
  if models.isEmpty then w
  else
    let models := if show_running_only then models.filter running else models
    if show_running_only && models.isEmpty then w
    else
      let hdr := s!"Models for Project ID: {project_id} and Name: {project_name}"
      { w with output := w.output ++ hdr :: (models.map (modelLines render)).flatten }

/-- The persistence record `f"{model['name']},{model_id},{active_model_version_id}"`
appended for a successfully stopped model. -/
def stopRecord (m : Model) : String :=
  let n := m.name
  let i := m.id
  let v := m.activeModelVersionId
  s!"{n},{i},{v}"

/-- The confirmation `stop_running_models` prints when at least one model was
stopped. -/
def stoppedMsg (project_id project_name : String) : String :=
  s!"Stopped models for Project ID: {project_id} and Name: {project_name}. Details logged in stopped_models.txt."

/-- The `for model in models:` loop of `stop_running_models`: for every model
with status `"Running"` it issues the stop POST and, on success, appends the
persistence record to the accumulator `stopped_models`. -/
def stopLoop (api : Api) (models : List Model) (stopped_models : List String)
    (w : World) : List String × World :=
  match models with
  | [] => (stopped_models, w)
  | m :: rest =>
    if running m then
      let p := stop_model_deployment api m.id m.activeModelVersionId w
      if p.1 then stopLoop api rest (stopped_models ++ [stopRecord m]) p.2
      else stopLoop api rest stopped_models p.2
    else stopLoop api rest stopped_models w

/-- Embedding of `stop_running_models`: fetches the models itself, runs the
stop loop, and only if some model was stopped opens `stopped_models.txt` in
append mode (creating it when missing), writes one line per record, and
prints the confirmation. -/
def stop_running_models (api : Api) (project_id project_name : String)
    (w : World) : World :=
  let p := fetch_models api project_id w
  let models := p.1
  let w := p.2
  if models.isEmpty then w
  else
    let q := stopLoop api models [] w
    let stopped_models := q.1
    let w := q.2
    if stopped_models.isEmpty then w
    else
      let w := { w with file := some (w.file.getD [] ++ stopped_models) }
      { w with output := w.output ++ [stoppedMsg project_id project_name] }

/-- CPython `list.split(',')` on the character list of a string: splits at
every comma, keeping empty fields (so the result always has one more part
than the string has commas). -/
def splitComma (cur : List Char) (cs : List Char) : List (List Char) :=
  match cs with
  | [] => [cur.reverse]
  | c :: rest =>
    if c = ',' then cur.reverse :: splitComma [] rest
    else splitComma (c :: cur) rest

/-- CPython `str.strip()` on a character list: drops leading and trailing
whitespace. -/
def stripChars (cs : List Char) : List Char :=
  ((cs.dropWhile Char.isWhitespace).reverse.dropWhile Char.isWhitespace).reverse

/-- The unpacking `name, model_id, active_model_version_id = model.strip().split(',')`:
succeeds exactly when stripping and splitting on `,` yields three fields;
any other field count raises an uncaught `ValueError` in the source,
modelled by `none`. -/
def parseRecord (line : String) : Option (String × String × String) :=
  match splitComma [] (stripChars line.toList) with
  | [n, mid, vid] => some (String.mk n, String.mk mid, String.mk vid)
  | _ => none

/-- The start request a well-formed persistence line gives rise to. -/
def lineRequest (line : String) : Option Request :=
  (parseRecord line).map (fun t => Request.startModel t.2.1 t.2.2)

/-- The confirmation printed after a successful start call. -/
def startedMsg (name model_id active_model_version_id : String) : String :=
  s!"Successfully started model \x27{name}\x27 with ID {model_id} and Version ID {active_model_version_id}"

/-- The `for model in stopped_models:` loop of `start_models_from_file`: each
line is stripped and split on `,`; a line without exactly three fields
raises an uncaught `ValueError` (`some` fault, loop abandoned); otherwise
the start POST is issued and, on success, a confirmation is printed. -/
def startLoop (api : Api) (stopped_models : List String) (w : World) :
    World × Option String :=
  match stopped_models with
  | [] => (w, none)
  | line :: rest =>
    match parseRecord line with
    | none => (w, some "ValueError: unpacking the stopped-model record failed")
    | some t =>
      let name := t.1
      let model_id := t.2.1
      let active_model_version_id := t.2.2
      let p := start_model_deployment api model_id active_model_version_id w
      let w :=
        if p.1 then
          { p.2 with
            output := p.2.output ++ [startedMsg name model_id active_model_version_id] }
        else p.2
      startLoop api rest w

/-- The message printed when `stopped_models.txt` does not exist. -/
def missingFileMsg : String :=
  "stopped_models.txt not found. No models to start."

/-- Embedding of `start_models_from_file`: when the persistence file is
missing it prints one message and returns normally; otherwise it reads all
lines and runs the start loop over them. -/
def start_models_from_file (api : Api) (w : World) : World × Option String :=
  match w.file with
  | none => ({ w with output := w.output ++ [missingFileMsg] }, none)
  | some stopped_models => startLoop api stopped_models w

/-- The four operations accepted by the argument parser. -/
inductive Operation where
  | show_all : Operation
  | show_running : Operation
  | start : Operation
  | stop : Operation
deriving Repr, DecidableEq

/-- The spelling of each operation on the command line. -/
def opName (op : Operation) : String :=
  match op with
  | Operation.show_all => "show-all"
  | Operation.show_running => "show-running"
  | Operation.start => "start"
  | Operation.stop => "stop"

/-- Embedding of `argparse` validation of the one positional argument against
the fixed choice set. -/
def parse_args (arg : String) : Option Operation :=
  if arg = "show-all" then some Operation.show_all
  else if arg = "show-running" then some Operation.show_running
  else if arg = "start" then some Operation.start
  else if arg = "stop" then some Operation.stop
  else none

/-- The per-project banner `main` prints before dispatching. -/
def performingMsg (op : Operation) (project_id project_name : String) : String :=
  let o := opName op
  s!"Performing operation \x27{o}\x27 on Project ID: {project_id} and Name: {project_name}"

/-- The `for project in projects:` loop of `main`: fetches the models of each
project, silently skips projects with an empty result, and otherwise prints
the banner and dispatches on the operation.  A fault escaping
`start_models_from_file` aborts the remaining projects. -/
def mainLoop (api : Api) (render : Int → String) (op : Operation)
    (projects : List Project) (w : World) : World × Option String :=
  match projects with
  | [] => (w, none)
  | project :: rest =>
    let p := fetch_models api project.id w
    let models := p.1
    let w := p.2
    if models.isEmpty then mainLoop api render op rest w
    else
      let w := { w with
        output := w.output ++ [performingMsg op project.id project.name] }
      match op with
      | Operation.show_all =>
        mainLoop api render op rest
          (show_models api render project.id project.name false w)
      | Operation.show_running =>
        mainLoop api render op rest
          (show_models api render project.id project.name true w)
      | Operation.stop =>
        mainLoop api render op rest
          (stop_running_models api project.id project.name w)
      | Operation.start =>
        let q := start_models_from_file api w
        match q.2 with
        | some e => (q.1, some e)
        | none => mainLoop api render op rest q.1

/-- Embedding of `main` after argument parsing: fetches all projects, prints
`No projects found.` and returns when the list is empty, and otherwise runs
the per-project loop. -/
def main (api : Api) (render : Int → String) (op : Operation) (w : World) :
    World × Option String :=
  let p := fetch_projects api w
  if p.1.isEmpty then
    ({ p.2 with output := p.2.output ++ ["No projects found."] }, none)
  else mainLoop api render op p.1 p.2

/-- The message of the `ValueError` raised at import time when the API key is
missing or empty. -/
def keyError : String :=
  "API key is not set in the environment variable DOMINO_USER_API_KEY"

/-- CPython truthiness of `os.getenv(...)`: `None` and the empty string are
falsy, every other string truthy. -/
def api_key_truthy (api_key : Option String) : Bool :=
  match api_key with
  | none => false
  | some s => !s.isEmpty

/-- The module-level startup check: `api_key = os.getenv("DOMINO_USER_API_KEY")`
followed by `if not api_key: raise ValueError(...)`. -/
def startup (env_key : Option String) : Except String String :=
  if api_key_truthy env_key then Except.ok (env_key.getD "")
  else Except.error keyError

/-- One whole invocation of the script: the import-time key check runs first;
only then is the command-line argument parsed (an unrecognized value is a
usage error from `argparse`) and `main` dispatched. -/
def run_program (env_key : Option String) (arg : String) (api : Api)
    (render : Int → String) (w : World) : World × Option String :=
  match startup env_key with
  | Except.error e => (w, some e)
  | Except.ok _ =>
    match parse_args arg with
    | none => (w, some "usage: invalid choice for operation")
    | some op => main api render op w

end Domino
namespace Domino

/-- `fetch_models` always appends exactly its own request and touches nothing
else of the world, whatever the status code. -/
theorem fetch_models_world (api : Api) (project_id : String) (w : World) :
    (fetch_models api project_id w).2 =
      { w with requests := w.requests ++ [Request.getModels project_id] } := by
  unfold fetch_models
  dsimp only
  split <;> rfl

/-- `stop_model_deployment` appends exactly its own request. -/
theorem stop_model_deployment_world (api : Api) (model_id version_id : String)
    (w : World) :
    (stop_model_deployment api model_id version_id w).2 =
      { w with requests := w.requests ++ [Request.stopModel model_id version_id] } := by
  unfold stop_model_deployment
  dsimp only
  split <;> rfl

/-- `start_model_deployment` appends exactly its own request. -/
theorem start_model_deployment_world (api : Api) (model_id version_id : String)
    (w : World) :
    (start_model_deployment api model_id version_id w).2 =
      { w with requests := w.requests ++ [Request.startModel model_id version_id] } := by
  unfold start_model_deployment
  dsimp only
  split <;> rfl

/-- The boolean returned by `stop_model_deployment` is exactly the HTTP-200 test. -/
theorem stop_model_deployment_fst (api : Api) (model_id version_id : String)
    (w : World) :
    (stop_model_deployment api model_id version_id w).1 =
      decide (api.stop model_id version_id = 200) := by
  unfold stop_model_deployment
  dsimp only
  split <;> simp_all

/-- The boolean returned by `start_model_deployment` is exactly the HTTP-200 test. -/
theorem start_model_deployment_fst (api : Api) (model_id version_id : String)
    (w : World) :
    (start_model_deployment api model_id version_id w).1 =
      decide (api.start model_id version_id = 200) := by
  unfold start_model_deployment
  dsimp only
  split <;> simp_all

/-- The empty world used to instantiate universally quantified theorems. -/
def w0 : World := { requests := [], output := [], file := none }

/-- An oracle whose every response has status 503. -/
def apiDown : Api :=
  { projects := (503, [])
    models := fun _ _ => (503, [])
    stop := fun _ _ => 503
    start := fun _ _ => 503 }

/-- C1: for every HTTP response with status other than 200, `fetch_projects`
and `fetch_models` return the empty list and `stop_model_deployment` and
`start_model_deployment` return `false`; the wrappers are total functions of
the response, so no exception escapes them. -/
theorem wrappers_return_empty_on_non200 (api : Api)
    (project_id model_id version_id : String) (w₁ w₂ w₃ w₄ : World)
    (h₁ : api.projects.1 ≠ 200)
    (h₂ : (api.models project_id (countGetModels project_id w₂.requests)).1 ≠ 200)
    (h₃ : api.stop model_id version_id ≠ 200)
    (h₄ : api.start model_id version_id ≠ 200) :
    (fetch_projects api w₁).1 = [] ∧
    (fetch_models api project_id w₂).1 = [] ∧
    (stop_model_deployment api model_id version_id w₃).1 = false ∧
    (start_model_deployment api model_id version_id w₄).1 = false := by
  refine ⟨?_, ?_, ?_, ?_⟩
  · unfold fetch_projects
    simp [h₁]
  · unfold fetch_models
    simp [h₂]
  · unfold stop_model_deployment
    simp [h₃]
  · unfold start_model_deployment
    simp [h₄]

/-- Witness for C1 at a concrete all-503 oracle. -/
theorem wrappers_return_empty_on_non200_witness :
    (fetch_projects apiDown w0).1 = [] ∧
    (fetch_models apiDown "p" w0).1 = [] ∧
    (stop_model_deployment apiDown "m" "v" w0).1 = false ∧
    (start_model_deployment apiDown "m" "v" w0).1 = false :=
  wrappers_return_empty_on_non200 apiDown "p" "m" "v" w0 w0 w0 w0
    (by decide) (by decide) (by decide) (by decide)

end Domino
namespace Domino

/-- `startLoop` never touches the persistence file, whether it completes or
aborts on a malformed line. -/
theorem startLoop_file (api : Api) (lines : List String) :
    ∀ w : World, (startLoop api lines w).1.file = w.file := by
  induction lines with
  | nil => intro w; rfl
  | cons line rest ih =>
    intro w
    unfold startLoop
    cases h : parseRecord line with
    | none => simp [h]
    | some t =>
      simp only [h]
      rw [ih]
      split <;> simp [start_model_deployment_world]

/-- On a prefix of well-formed lines, `startLoop` completes without a fault
and issues exactly the start call of each line, in file order. -/
theorem startLoop_wf (api : Api) (lines : List String) :
    ∀ w : World, (∀ l ∈ lines, (parseRecord l).isSome) →
      (startLoop api lines w).2 = none ∧
      (startLoop api lines w).1.requests = w.requests ++ lines.filterMap lineRequest := by
  induction lines with
  | nil => intro w _; exact ⟨rfl, by simp [startLoop]⟩
  | cons line rest ih =>
    intro w hwf
    obtain ⟨t, ht⟩ := Option.isSome_iff_exists.mp (hwf line (by simp))
    have hrest : ∀ l ∈ rest, (parseRecord l).isSome := fun l hl => hwf l (by simp [hl])
    unfold startLoop
    simp only [ht]
    split
    · refine ⟨(ih _ hrest).1, ?_⟩
      rw [(ih _ hrest).2]
      simp [start_model_deployment_world, lineRequest, ht]
    · refine ⟨(ih _ hrest).1, ?_⟩
      rw [(ih _ hrest).2]
      simp [start_model_deployment_world, lineRequest, ht]

end Domino
namespace Domino

/-- A `filterMap` whose function succeeds on every element keeps the length. -/
theorem filterMap_length_of_isSome {α β : Type} (f : α → Option β) :
    ∀ l : List α, (∀ x ∈ l, (f x).isSome) → (l.filterMap f).length = l.length := by
  intro l
  induction l with
  | nil => intro _; rfl
  | cons x xs ih =>
    intro h
    obtain ⟨y, hy⟩ := Option.isSome_iff_exists.mp (h x (by simp))
    have hxs := ih (fun z hz => h z (by simp [hz]))
    simp [hy, hxs]

/-- C2: the start operation on a well-formed persistence file of K lines
completes without a fault and issues exactly K start calls, one per line, in
file order; the statement holds for every world, so it is independent of
whatever requests and output the dispatcher produced before the call. -/
theorem start_op_issues_one_call_per_line (api : Api) (lines : List String)
    (w : World) (hfile : w.file = some lines)
    (hwf : ∀ l ∈ lines, (parseRecord l).isSome) :
    (start_models_from_file api w).2 = none ∧
    (start_models_from_file api w).1.requests =
      w.requests ++ lines.filterMap lineRequest ∧
    (lines.filterMap lineRequest).length = lines.length := by
  have hlr : ∀ l ∈ lines, (lineRequest l).isSome := by
    intro l hl
    have h := hwf l hl
    simpa [lineRequest] using h
  unfold start_models_from_file
  rw [hfile]
  exact ⟨(startLoop_wf api lines w hwf).1, (startLoop_wf api lines w hwf).2,
    filterMap_length_of_isSome lineRequest lines hlr⟩

/-- A world whose persistence file holds two well-formed records. -/
def wStart : World :=
  { requests := [], output := [], file := some ["a,m1,v1", "b,m2,v2"] }

/-- An oracle whose every response has status 200 and an empty body. -/
def apiOk : Api :=
  { projects := (200, [])
    models := fun _ _ => (200, [])
    stop := fun _ _ => 200
    start := fun _ _ => 200 }

/-- Witness for C2 on a concrete two-line file. -/
theorem start_op_issues_one_call_per_line_witness :
    (start_models_from_file apiOk wStart).2 = none ∧
    (start_models_from_file apiOk wStart).1.requests =
      wStart.requests ++ (["a,m1,v1", "b,m2,v2"] : List String).filterMap lineRequest ∧
    ((["a,m1,v1", "b,m2,v2"] : List String).filterMap lineRequest).length =
      (["a,m1,v1", "b,m2,v2"] : List String).length :=
  start_op_issues_one_call_per_line apiOk ["a,m1,v1", "b,m2,v2"] wStart rfl
    (by decide)

/-- `startLoop` on a list whose first malformed line is `bad` raises the
unpacking fault there, after issuing exactly the start calls of the
well-formed prefix. -/
theorem startLoop_malformed (api : Api) (good : List String) (bad : String)
    (rest : List String) :
    ∀ w : World, (∀ l ∈ good, (parseRecord l).isSome) → parseRecord bad = none →
      (startLoop api (good ++ bad :: rest) w).2.isSome ∧
      (startLoop api (good ++ bad :: rest) w).1.requests =
        w.requests ++ good.filterMap lineRequest := by
  induction good with
  | nil =>
    intro w _ hbad
    unfold startLoop
    simp [hbad]
  | cons line gs ih =>
    intro w hwf hbad
    obtain ⟨t, ht⟩ := Option.isSome_iff_exists.mp (hwf line (by simp))
    have hgs : ∀ l ∈ gs, (parseRecord l).isSome := fun l hl => hwf l (by simp [hl])
    simp only [List.cons_append]
    unfold startLoop
    simp only [ht]
    split
    · refine ⟨(ih _ hgs hbad).1, ?_⟩
      rw [(ih _ hgs hbad).2]
      simp [start_model_deployment_world, lineRequest, ht]
    · refine ⟨(ih _ hgs hbad).1, ?_⟩
      rw [(ih _ hgs hbad).2]
      simp [start_model_deployment_world, lineRequest, ht]

/-- C4: a persistence line that does not split on `,` into exactly three
parts raises an unhandled structural fault that terminates the start
operation; the start calls issued are exactly those of the lines before the
malformed one, and no line after it is processed. -/
theorem start_op_aborts_at_malformed_line (api : Api) (good : List String)
    (bad : String) (rest : List String) (w : World)
    (hfile : w.file = some (good ++ bad :: rest))
    (hgood : ∀ l ∈ good, (parseRecord l).isSome)
    (hbad : parseRecord bad = none) :
    (start_models_from_file api w).2.isSome ∧
    (start_models_from_file api w).1.requests =
      w.requests ++ good.filterMap lineRequest := by
  unfold start_models_from_file
  rw [hfile]
  exact startLoop_malformed api good bad rest w hgood hbad

/-- A world whose persistence file has a malformed second line. -/
def wBad : World :=
  { requests := [], output := [], file := some ["a,m1,v1", "oops", "b,m2,v2"] }

/-- Witness for C4: the fault hits at the malformed second line and only the
first line's start call was issued. -/
theorem start_op_aborts_at_malformed_line_witness :
    (start_models_from_file apiOk wBad).2.isSome ∧
    (start_models_from_file apiOk wBad).1.requests =
      wBad.requests ++ (["a,m1,v1"] : List String).filterMap lineRequest :=
  start_op_aborts_at_malformed_line apiOk ["a,m1,v1"] "oops" ["b,m2,v2"] wBad rfl
    (by decide) (by decide)

/-- C6: when the persistence file does not exist, the start operation prints
exactly one message, issues no request, leaves the file missing and returns
normally. -/
theorem start_op_missing_file_prints_once_no_requests (api : Api) (w : World)
    (hfile : w.file = none) :
    start_models_from_file api w =
      ({ w with output := w.output ++ [missingFileMsg] }, none) := by
  unfold start_models_from_file
  rw [hfile]

/-- Witness for C6 at the empty world. -/
theorem start_op_missing_file_prints_once_no_requests_witness :
    start_models_from_file apiOk w0 =
      ({ w0 with output := w0.output ++ [missingFileMsg] }, none) :=
  start_op_missing_file_prints_once_no_requests apiOk w0 rfl

/-- C7: the start operation never modifies the persistence file: its contents
(and its very existence) are identical before and after every run, whether
the run completes or aborts on a malformed line; in particular no entry is
deleted after a successful start call. -/
theorem start_op_preserves_persistence_file (api : Api) (w : World) :
    (start_models_from_file api w).1.file = w.file := by
  unfold start_models_from_file
  cases h : w.file with
  | none => rfl
  | some lines => rw [startLoop_file api lines w, h]

end Domino
namespace Domino

/-- A model the stop loop records: status `"Running"` and a stop POST that
answered 200. -/
def stoppedPred (api : Api) (m : Model) : Bool :=
  running m && decide (api.stop m.id m.activeModelVersionId = 200)

/-- The records the stop loop accumulates for a fetched model list: one
`name,model_id,version_id` line per running model whose stop call
succeeded, in the order of the list. -/
def stoppedRecords (api : Api) (models : List Model) : List String :=
  (models.filter (stoppedPred api)).map stopRecord

/-- The stop POSTs issued for a fetched model list: one per running model,
successful or not, in the order of the list. -/
def stopRequests (models : List Model) : List Request :=
  (models.filter running).map (fun m => Request.stopModel m.id m.activeModelVersionId)

/-- Characterization of the stop loop: it returns the accumulated records
followed by one record per successfully stopped running model, and its only
effect on the world is appending the stop requests of the running models —
the persistence file and the output are untouched inside the loop. -/
theorem stopLoop_spec (api : Api) (models : List Model) :
    ∀ (recs : List String) (w : World),
      (stopLoop api models recs w).1 = recs ++ stoppedRecords api models ∧
      (stopLoop api models recs w).2 =
        { w with requests := w.requests ++ stopRequests models } := by
  induction models with
  | nil =>
    intro recs w
    simp [stopLoop, stoppedRecords, stopRequests]
  | cons m ms ih =>
    intro recs w
    unfold stopLoop
    dsimp only
    rw [stop_model_deployment_fst]
    by_cases hr : running m
    · by_cases hs : api.stop m.id m.activeModelVersionId = 200
      · obtain ⟨ih1, ih2⟩ := ih (recs ++ [stopRecord m])
          { w with requests := w.requests ++ [Request.stopModel m.id m.activeModelVersionId] }
        simp [hr, hs, ih1, ih2, stop_model_deployment_world, stoppedRecords,
          stopRequests, stoppedPred, List.filter_cons]
      · obtain ⟨ih1, ih2⟩ := ih recs
          { w with requests := w.requests ++ [Request.stopModel m.id m.activeModelVersionId] }
        simp [hr, hs, ih1, ih2, stop_model_deployment_world, stoppedRecords,
          stopRequests, stoppedPred, List.filter_cons]
    · obtain ⟨ih1, ih2⟩ := ih recs w
      simp [hr, ih1, ih2, stoppedRecords, stopRequests, stoppedPred,
        List.filter_cons]

/-- What `stop_running_models` does to the persistence file: nothing when no
record was produced, and otherwise exactly one append of the records, after
the whole loop has run. -/
theorem stop_running_models_file (api : Api) (project_id project_name : String)
    (w : World) :
    (stop_running_models api project_id project_name w).file =
      if stoppedRecords api (fetch_models api project_id w).1 = [] then w.file
      else some (w.file.getD [] ++ stoppedRecords api (fetch_models api project_id w).1) := by
  unfold stop_running_models
  dsimp only
  rw [fetch_models_world]
  obtain ⟨h1, h2⟩ := stopLoop_spec api (fetch_models api project_id w).1 []
    { w with requests := w.requests ++ [Request.getModels project_id] }
  by_cases hM : (fetch_models api project_id w).1.isEmpty
  · have hnil : (fetch_models api project_id w).1 = [] := by
      simpa [List.isEmpty_iff] using hM
    simp [hM, hnil, stoppedRecords]
  · by_cases hz : stoppedRecords api (fetch_models api project_id w).1 = []
    · simp [hM, hz, h1, h2]
    · simp [hM, hz, h1, h2]

end Domino
namespace Domino

/-- C3: on one project, the stop operation appends to the persistence file
exactly one line per running model whose stop call succeeded (`stoppedRecords`,
one `name,model_id,version_id` record per such model, M of them for M
successful stops); when no record was produced — no running model, or every
stop call failed — the file is not touched at all, not even to create it. -/
theorem stop_op_appends_one_line_per_successful_stop (api : Api)
    (project_id project_name : String) (w : World) :
    ((stop_running_models api project_id project_name w).file =
      if stoppedRecords api (fetch_models api project_id w).1 = [] then w.file
      else some (w.file.getD [] ++ stoppedRecords api (fetch_models api project_id w).1)) ∧
    stoppedRecords api (fetch_models api project_id w).1 =
      ((fetch_models api project_id w).1.filter (stoppedPred api)).map stopRecord :=
  ⟨stop_running_models_file api project_id project_name w, rfl⟩

/-- C10: within one stop invocation the records keep the order of the fetched
model list (the recorded models form an order-preserving sublist of it), the
stop loop itself never touches the persistence file — the single append
happens only after every stop call of the project has completed — and the
final file contents are the old contents plus the records. -/
theorem stop_op_record_order_and_deferred_write (api : Api)
    (project_id project_name : String) (w : World) :
    (∀ models : List Model, List.Sublist (models.filter (stoppedPred api)) models) ∧
    (∀ (models : List Model) (recs : List String) (w₀ : World),
      (stopLoop api models recs w₀).2.file = w₀.file) ∧
    ((stop_running_models api project_id project_name w).file =
      if stoppedRecords api (fetch_models api project_id w).1 = [] then w.file
      else some (w.file.getD [] ++ stoppedRecords api (fetch_models api project_id w).1)) := by
  refine ⟨fun models => List.filter_sublist models, ?_, ?_⟩
  · intro models recs w₀
    rw [(stopLoop_spec api models recs w₀).2]
  · exact stop_running_models_file api project_id project_name w

/-- C5: for every project whose fetched models contain no model with
`activeVersionStatus == "Running"`, the show operation with the running-only
filter prints nothing at all — not even the project header. -/
theorem show_running_prints_nothing_without_running_models (api : Api)
    (render : Int → String) (project_id project_name : String) (w : World)
    (h : ∀ m ∈ (fetch_models api project_id w).1, ¬ running m) :
    (show_models api render project_id project_name true w).output = w.output := by
  have hfilter : (fetch_models api project_id w).1.filter running = [] := by
    rw [List.filter_eq_nil_iff]
    intro m hm
    simpa using h m hm
  unfold show_models
  dsimp only
  rw [fetch_models_world]
  split
  · rfl
  · simp [hfilter]

/-- A model whose active version is not running. -/
def mStopped : Model :=
  { id := "m1"
    name := "M"
    description := "d"
    activeVersionNumber := 1
    activeModelVersionId := "v1"
    activeVersionDataPlaneId := "dp"
    activeVersionStatus := "Stopped"
    lastModified := 0
    projectId := "p1"
    projectName := "P"
    projectOwnerUsername := "u"
    owners := []
    isAsync := false }

/-- An oracle with one project whose only model is not running. -/
def apiStopped : Api :=
  { projects := (200, [{ id := "p1", name := "P" }])
    models := fun _ _ => (200, [mStopped])
    stop := fun _ _ => 200
    start := fun _ _ => 200 }

/-- Witness for C5: one fetched model, not running, and the operation leaves
the output untouched. -/
theorem show_running_prints_nothing_without_running_models_witness :
    (show_models apiStopped (fun _ => "") "p1" "P" true w0).output = w0.output :=
  show_running_prints_nothing_without_running_models apiStopped (fun _ => "")
    "p1" "P" w0 (by decide)

end Domino
namespace Domino

/-- The fetched model list depends only on the request log of the world. -/
theorem fetch_models_fst (api : Api) (project_id : String) (w : World) :
    (fetch_models api project_id w).1 =
      if (api.models project_id (countGetModels project_id w.requests)).1 = 200
      then (api.models project_id (countGetModels project_id w.requests)).2
      else [] := by
  unfold fetch_models
  dsimp only
  split <;> simp_all

/-- The only request `show_models` issues is its own `getModels`. -/
theorem show_models_requests (api : Api) (render : Int → String)
    (project_id project_name : String) (b : Bool) (w : World) :
    (show_models api render project_id project_name b w).requests =
      w.requests ++ [Request.getModels project_id] := by
  unfold show_models
  dsimp only
  rw [fetch_models_world]
  split
  · rfl
  · split <;> split <;> rfl

/-- The requests `stop_running_models` issues: its own `getModels`, then one
stop POST per running model of the list it fetched. -/
theorem stop_running_models_requests (api : Api)
    (project_id project_name : String) (w : World) :
    (stop_running_models api project_id project_name w).requests =
      w.requests ++ Request.getModels project_id ::
        stopRequests (fetch_models api project_id w).1 := by
  unfold stop_running_models
  dsimp only
  rw [fetch_models_world]
  obtain ⟨h1, h2⟩ := stopLoop_spec api (fetch_models api project_id w).1 []
    { w with requests := w.requests ++ [Request.getModels project_id] }
  by_cases hM : (fetch_models api project_id w).1.isEmpty
  · have hnil : (fetch_models api project_id w).1 = [] := by
      simpa [List.isEmpty_iff] using hM
    simp [hM, hnil, stopRequests]
  · split
    · simp_all
    · split <;> simp [h2]

/-- `countGetModels` distributes over request-log concatenation. -/
theorem countGetModels_append (project_id : String) (rs ss : List Request) :
    countGetModels project_id (rs ++ ss) =
      countGetModels project_id rs + countGetModels project_id ss := by
  unfold countGetModels
  simp [List.filter_append]

/-- A `getModels` request for the project counts as one. -/
theorem countGetModels_own (project_id : String) :
    countGetModels project_id [Request.getModels project_id] = 1 := by
  simp [countGetModels, isGetModels]

/-- Stop POSTs contribute nothing to the `getModels` count. -/
theorem countGetModels_stopRequests (project_id : String) (models : List Model) :
    countGetModels project_id (stopRequests models) = 0 := by
  unfold countGetModels stopRequests
  induction models.filter running with
  | nil => rfl
  | cons m ms ih => simp [isGetModels, ih]

end Domino
namespace Domino

/-- The project loop on an exhausted list returns the world unchanged. -/
theorem mainLoop_nil (api : Api) (render : Int → String) (op : Operation)
    (w : World) : mainLoop api render op [] w = (w, none) := rfl

/-- Stop POSTs are never `getModels` requests. -/
theorem stopRequests_filter_getModels (project_id : String) (models : List Model) :
    (stopRequests models).filter (isGetModels project_id) = [] := by
  unfold stopRequests
  induction models.filter running with
  | nil => rfl
  | cons m ms ih => simp [isGetModels, ih]

/-- C8: for a project whose model fetch answers 200 with a non-empty list,
dispatching show-all, show-running or stop issues the `getModels` request
for that project exactly twice — once in the dispatcher's guard and once
inside the operation — and (shown here for stop) the operation acts on the
response to its own second request: the stop POSTs issued are those of the
list fetched after the dispatcher's fetch, whose own response is discarded. -/
theorem dispatcher_fetches_models_twice_per_project (api : Api)
    (render : Int → String) (op : Operation) (project : Project) (w : World)
    (hop : op = Operation.show_all ∨ op = Operation.show_running ∨
      op = Operation.stop)
    (h200 : (api.models project.id (countGetModels project.id w.requests)).1 = 200)
    (hne : (api.models project.id (countGetModels project.id w.requests)).2 ≠ []) :
    countGetModels project.id (mainLoop api render op [project] w).1.requests =
      countGetModels project.id w.requests + 2 ∧
    (mainLoop api render Operation.stop [project] w).1.requests =
      (w.requests ++ [Request.getModels project.id, Request.getModels project.id])
        ++ stopRequests ((fetch_models api project.id (fetch_models api project.id w).2).1) := by
  have hfst : (fetch_models api project.id w).1 =
      (api.models project.id (countGetModels project.id w.requests)).2 := by
    rw [fetch_models_fst, if_pos h200]
  have hM : ¬ (fetch_models api project.id w).1.isEmpty = true := by
    rw [hfst]
    simp [List.isEmpty_iff, hne]
  have hstop : (mainLoop api render Operation.stop [project] w).1.requests =
      (w.requests ++ [Request.getModels project.id, Request.getModels project.id])
        ++ stopRequests ((fetch_models api project.id (fetch_models api project.id w).2).1) := by
    unfold mainLoop
    dsimp only
    rw [if_neg hM, mainLoop_nil]
    dsimp only
    rw [stop_running_models_requests]
    rw [fetch_models_world]
    simp only [fetch_models_fst]
    simp
  refine ⟨?_, hstop⟩
  rcases hop with h | h | h
  · subst h
    unfold mainLoop
    dsimp only
    rw [if_neg hM, mainLoop_nil]
    dsimp only
    rw [show_models_requests, fetch_models_world]
    simp [countGetModels, List.filter_append, isGetModels]
  · subst h
    unfold mainLoop
    dsimp only
    rw [if_neg hM, mainLoop_nil]
    dsimp only
    rw [show_models_requests, fetch_models_world]
    simp [countGetModels, List.filter_append, isGetModels]
  · subst h
    rw [hstop]
    simp [countGetModels, List.filter_append, isGetModels,
      stopRequests_filter_getModels]

/-- A model whose active version is running. -/
def mRunning : Model :=
  { id := "m1"
    name := "M"
    description := "d"
    activeVersionNumber := 1
    activeModelVersionId := "v1"
    activeVersionDataPlaneId := "dp"
    activeVersionStatus := "Running"
    lastModified := 0
    projectId := "p1"
    projectName := "P"
    projectOwnerUsername := "u"
    owners := []
    isAsync := false }

/-- An oracle with one project whose only model is running. -/
def apiRunning : Api :=
  { projects := (200, [{ id := "p1", name := "P" }])
    models := fun _ _ => (200, [mRunning])
    stop := fun _ _ => 200
    start := fun _ _ => 200 }

/-- Witness for C8: the stop dispatch on one concrete running project counts
two `getModels` requests and the stop POST of the second response. -/
theorem dispatcher_fetches_models_twice_per_project_witness :
    countGetModels "p1"
        (mainLoop apiRunning (fun _ => "") Operation.stop
          [{ id := "p1", name := "P" }] w0).1.requests =
      countGetModels "p1" w0.requests + 2 ∧
    (mainLoop apiRunning (fun _ => "") Operation.stop
        [{ id := "p1", name := "P" }] w0).1.requests =
      (w0.requests ++ [Request.getModels "p1", Request.getModels "p1"])
        ++ stopRequests ((fetch_models apiRunning "p1"
            (fetch_models apiRunning "p1" w0).2).1) :=
  dispatcher_fetches_models_twice_per_project apiRunning (fun _ => "")
    Operation.stop { id := "p1", name := "P" } w0
    (Or.inr (Or.inr rfl)) (by decide) (by decide)

/-- C9: an empty `DOMINO_USER_API_KEY` aborts with the very configuration
error of an unset variable — the check tests CPython falsiness, not
presence — before the command-line argument is even parsed and without
issuing any request or touching any file (the returned world is untouched,
for every argument string, valid or not). -/
theorem empty_api_key_aborts_like_unset (arg : String) (api : Api)
    (render : Int → String) (w : World) :
    run_program (some "") arg api render w = (w, some keyError) ∧
    run_program none arg api render w = (w, some keyError) := by
  constructor <;> rfl

end Domino
